import Mathlib

/-!
# Shallow embedding of the pyladeclicker application (src/main.rs)

This file embeds the data model and operations of the `pyladeclicker`
Rust program and proves properties about them.

Modelling conventions:
* `f32` values (the clicks-per-second rate, the humanized-delay arithmetic)
  are modelled as `ℚ`; all concrete values appearing in proofs
  (42.5, 51, 1000/3, ...) are exactly representable in `f32`, so the
  rational model agrees with the float computation at every point used.
* Rust's `as u64` / `as usize` casts of non-negative floats truncate toward
  zero; they are modelled as `Int.toNat ∘ Int.floor`.
* Calls into the random generator (`rng.gen_range(lo..=hi)`) are modelled by
  passing the drawn value as an explicit argument, constrained by the
  hypotheses `lo ≤ draw` and `draw ≤ hi`.
* OS input primitives (`rdev::simulate`, `PostMessageW`) are modelled as
  events appended to a trace; sleeps carry their durations in the trace or
  are dropped when no claim mentions them.
-/

namespace PyladeClicker

/-- The subset of `rdev::Key` constructors that the program references
(`vk_to_key`, `key_to_string`, the capture lists, `string_to_key`).
Every constructor below has an explicit arm in the source `key_to_string`,
so the Rust catch-all `_ => format!("{:?}", key)` arm is unreachable on
this subset. -/
inductive Key where
  | F1 | F2 | F3 | F4 | F5 | F6 | F7 | F8 | F9 | F10 | F11 | F12
  | Home | End | PageUp | PageDown | Insert | Delete
  | UpArrow | DownArrow | LeftArrow | RightArrow
  | Space | Return | Escape | Tab | Backspace | CapsLock
  | ShiftLeft | ShiftRight | ControlLeft | ControlRight | Alt | AltGr
deriving DecidableEq, Repr

/-- Rust `enum ClickMode` from src/main.rs. -/
inductive ClickMode where
  | Click | Hold | Humanized
deriving DecidableEq, Repr

/-- Rust `enum ClickType` from src/main.rs. -/
inductive ClickType where
  | LeftClick | RightClick | Space
deriving DecidableEq, Repr

/-- Rust `fn key_to_string(key: &Key) -> String` from src/main.rs. -/
def key_to_string : Key → String
  | .F1 => "F1"
  | .F2 => "F2"
  | .F3 => "F3"
  | .F4 => "F4"
  | .F5 => "F5"
  | .F6 => "F6"
  | .F7 => "F7"
  | .F8 => "F8"
  | .F9 => "F9"
  | .F10 => "F10"
  | .F11 => "F11"
  | .F12 => "F12"
  | .Home => "Home"
  | .End => "End"
  | .PageUp => "Page Up"
  | .PageDown => "Page Down"
  | .Insert => "Insert"
  | .Delete => "Delete"
  | .UpArrow => "Up"
  | .DownArrow => "Down"
  | .LeftArrow => "Left"
  | .RightArrow => "Right"
  | .Space => "Space"
  | .Return => "Enter"
  | .Escape => "Escape"
  | .Tab => "Tab"
  | .Backspace => "Backspace"
  | .CapsLock => "Caps Lock"
  | .ShiftLeft => "Left Shift"
  | .ShiftRight => "Right Shift"
  | .ControlLeft => "Left Ctrl"
  | .ControlRight => "Right Ctrl"
  | .Alt => "Alt"
  | .AltGr => "Alt Gr"

/-- Rust `fn string_to_key(s: &str) -> Option<Key>` from src/main.rs. -/
def string_to_key : String → Option Key
  | "F1" => some .F1
  | "F2" => some .F2
  | "F3" => some .F3
  | "F4" => some .F4
  | "F5" => some .F5
  | "F6" => some .F6
  | "F7" => some .F7
  | "F8" => some .F8
  | "F9" => some .F9
  | "F10" => some .F10
  | "F11" => some .F11
  | "F12" => some .F12
  | "Space" => some .Space
  | "Enter" => some .Return
  | "Escape" => some .Escape
  | "Tab" => some .Tab
  | "Home" => some .Home
  | "End" => some .End
  | "PageUp" => some .PageUp
  | "PageDown" => some .PageDown
  | "Insert" => some .Insert
  | "Delete" => some .Delete
  | "Up" => some .UpArrow
  | "Down" => some .DownArrow
  | "Left" => some .LeftArrow
  | "Right" => some .RightArrow
  | "Backspace" => some .Backspace
  | _ => none

/-- The two event shapes of `rdev::EventType` that the global hotkey
listener distinguishes (`EventType::KeyPress(key)` versus anything else). -/
inductive EventType where
  | keyPress (k : Key)
  | keyRelease (k : Key)
deriving DecidableEq, Repr

/-- One invocation of the callback installed by
`fn start_hotkey_toggle_listener` (src/main.rs):
given the current hotkey combination and the current value of the
`clicking` flag, returns the new value of the flag for the incoming event.
Mirrors the source: a single-member combination toggles only on that exact
key; a multi-member combination toggles on *any* member; other events
leave the flag alone. -/
def hotkeyToggleStep (hotkey : List Key) (clicking : Bool) (ev : EventType) : Bool :=
  match ev with
  | .keyPress k =>
      if hotkey.length = 1 then
        match hotkey.head? with
        | some hk => if k = hk then !clicking else clicking
        | none => clicking
      else if k ∈ hotkey ∧ 1 < hotkey.length then !clicking
      else clicking
  | .keyRelease _ => clicking

/-! ## The clicking engine loop (C1)

`fn start_clicking_thread` runs an infinite loop; each iteration reads the
shared cells (`clicking`, `click_mode`, `click_type`, `target_window`, ...)
and acts.  For the hold/release pairing property only the `clicking` flag,
the mode and the loop-owned `is_holding` flag matter; the `Click` and
`Humanized` branches never call `perform_hold`/`perform_release` and never
write `is_holding`, so their emissions are abstracted to a `clickEvt`
token.  Mode/kind/flag changes between iterations are modelled by letting
every iteration receive an arbitrary environment. -/

/-- Events relevant to the hold/release pairing of the engine loop.
`holdPress` is a call to `perform_hold`, `holdRelease` a call to
`perform_release`; `clickEvt` stands for the press+release pairs emitted
by `perform_click` in the `Click`/`Humanized` branches. -/
inductive EngineEvt where
  | clickEvt
  | holdPress
  | holdRelease
deriving DecidableEq, Repr

/-- One iteration of the loop body in `fn start_clicking_thread`
(src/main.rs, the `loop { if clicking.load(...) { ... } else { ... } }`):
given the active flag and mode read at the top of the iteration and the
current `is_holding` flag, returns the events emitted this iteration and
the new `is_holding` flag. -/
def engineStep (active : Bool) (mode : ClickMode) (holding : Bool) :
    List EngineEvt × Bool :=
  if active then
    match mode with
    | .Click => ([.clickEvt], holding)
    | .Hold => if holding then ([], true) else ([.holdPress], true)
    | .Humanized => ([.clickEvt], holding)
  else
    if holding then ([.holdRelease], false) else ([], false)

/-- Running the engine loop over a finite sequence of per-iteration
environments (active flag, mode), threading the `is_holding` flag and
concatenating the emitted events. -/
def engineRun : List (Bool × ClickMode) → Bool → List EngineEvt
  | [], _ => []
  | (a, m) :: rest, holding =>
      (engineStep a m holding).1 ++ engineRun rest (engineStep a m holding).2

/-- Predicate `alternatesFrom b tr` holds when, starting from holding-state `b`, the
hold events in `tr` alternate press, release, press, ...: a `holdPress`
occurs only when not holding and a `holdRelease` only when holding.
`clickEvt` tokens are ignored. -/
def alternatesFrom : Bool → List EngineEvt → Bool
  | _, [] => true
  | b, .clickEvt :: t => alternatesFrom b t
  | false, .holdPress :: t => alternatesFrom true t
  | true, .holdRelease :: t => alternatesFrom false t
  | _, _ :: _ => false

/-! ## Humanized delay and burst mode (C2, C3) -/

/-- The jitter band chosen inside `fn calculate_humanized_delay`
(src/main.rs): `±3` for rates above 20/s, `±5` for rates in (10, 20],
`±10` otherwise.  The random variation is drawn from
`[-humanizedBand cps, humanizedBand cps]`. -/
def humanizedBand (cps : ℚ) : ℚ :=
  if 20 < cps then 3 else if 10 < cps then 5 else 10

/-- Rust `fn calculate_humanized_delay(cps, rng) -> Duration` (src/main.rs),
with the drawn `variation` passed explicitly.  The base delay is
`1000.0 / cps`; the result is `(base + variation).max(1.0)` cast with
`as u64`, i.e. truncated toward zero — since the value is at least 1,
this is the floor.  Returns the delay in milliseconds. -/
def calculate_humanized_delay (cps variation : ℚ) : ℕ :=
  (⌊max (1000 / cps + variation) 1⌋).toNat

/-- Expression `(target_cps * 0.5) as usize` from `fn drag_click_burst`
(src/main.rs): the truncated burst-size base. -/
def base_burst_size (cps : ℚ) : ℕ := (⌊cps * (1 / 2)⌋).toNat

/-- Events emitted by one call of `fn drag_click_burst`: a click (via
`perform_click`) or a sleep of the given number of microseconds. -/
inductive BurstEvt where
  | click
  | sleepMicros (us : ℕ)
deriving DecidableEq, Repr

/-- The `for i in 0..burst_count` loop of `fn drag_click_burst`: emit a
click each iteration and sleep `d` microseconds after every click except
the last (`if i < burst_count - 1`). -/
def burstTrace (d : ℕ) : ℕ → List BurstEvt
  | 0 => []
  | 1 => [.click]
  | n + 2 => .click :: .sleepMicros d :: burstTrace d (n + 1)

/-- Rust `fn drag_click_burst(target, target_cps, rng, click_type)`
(src/main.rs), with the two random draws passed explicitly:
`countDraw` is `rng.gen_range((base−5)..=(base+5))` (saturating at 0) and
`delayDraw` is the single `rng.gen_range(500..=1500)` microsecond delay
used between all consecutive clicks of the burst. -/
def drag_click_burst (_cps : ℚ) (countDraw delayDraw : ℕ) : List BurstEvt :=
  burstTrace delayDraw countDraw

/-- Number of clicks in a burst trace. -/
def clickCount (tr : List BurstEvt) : ℕ :=
  tr.countP (fun e => e = BurstEvt.click)

/-- The sleep durations (microseconds) occurring in a burst trace. -/
def sleepsOf (tr : List BurstEvt) : List ℕ :=
  tr.filterMap (fun e => match e with
    | .sleepMicros u => some u
    | .click => none)

/-! ## Configuration store (C5, C6) -/

/-- Rust `struct AppConfig` from src/main.rs (`normal_delay_ms: u64` as `ℕ`,
`cps: f32` as `ℚ`). -/
structure AppConfig where
  hotkey : List String
  click_mode : String
  click_type : String
  normal_delay_ms : ℕ
  cps : ℚ
deriving DecidableEq, Repr

/-- Rust `impl Default for AppConfig` from src/main.rs. -/
def AppConfig.default : AppConfig :=
  { hotkey := ["F6"]
    click_mode := "Click"
    click_type := "LeftClick"
    normal_delay_ms := 1000
    cps := 10 }

/-- A persisted config document: either the JSON serialization of a
well-formed `AppConfig`, or text that does not parse as one (empty or
garbage). -/
inductive ConfigDoc where
  | valid (c : AppConfig)
  | malformed
deriving DecidableEq, Repr

/-- Modelled from the spec: the Configuration Store (external, serde_json)
"serializes/deserializes the user's mode, hotkey, delay, and rate settings
to a small JSON document"; serializing a well-formed `AppConfig` yields a
document that deserializes back to the same fields. -/
def encodeConfig (c : AppConfig) : ConfigDoc := .valid c

/-- Modelled from the spec: serde_json deserialization — a well-formed
document yields its `AppConfig`, an empty or garbage document fails. -/
def decodeConfig : ConfigDoc → Option AppConfig
  | .valid c => some c
  | .malformed => none

/-- Rust `fn load_config() -> AppConfig` (src/main.rs): `doc` is the result of
`fs::read_to_string` (`none` when the file is absent/unreadable); a
present document that fails to parse, like an absent file, falls back to
`AppConfig::default()`. -/
def load_config (doc : Option ConfigDoc) : AppConfig :=
  match doc with
  | some d =>
      match decodeConfig d with
      | some c => c
      | none => AppConfig.default
  | none => AppConfig.default

/-- The `match config.click_mode.as_str()` in
`impl Default for PyladeClickerApp` (src/main.rs). -/
def parseClickMode (s : String) : ClickMode :=
  if s = "Hold" then .Hold
  else if s = "Humanized" then .Humanized
  else .Click

/-- The `match config.click_type.as_str()` in
`impl Default for PyladeClickerApp` (src/main.rs). -/
def parseClickType (s : String) : ClickType :=
  if s = "RightClick" then .RightClick
  else if s = "Space" then .Space
  else .LeftClick

/-- The hotkey initialization in `impl Default for PyladeClickerApp`
(src/main.rs): parse each persisted key name with `string_to_key`,
dropping names that do not parse; fall back to `[F6]` when nothing
parsed. -/
def initHotkey (strs : List String) : List Key :=
  let hotkey_keys := strs.filterMap string_to_key
  if hotkey_keys.isEmpty then [Key.F6] else hotkey_keys

/-- The config-relevant application state assembled by
`impl Default for PyladeClickerApp` (src/main.rs). -/
structure AppSettings where
  click_mode : ClickMode
  click_type : ClickType
  normal_delay_ms : ℕ
  cps : ℚ
  hotkey : List Key
deriving DecidableEq, Repr

/-- The state construction in `impl Default for PyladeClickerApp`
(src/main.rs) from a loaded `AppConfig`. -/
def appFromConfig (c : AppConfig) : AppSettings :=
  { click_mode := parseClickMode c.click_mode
    click_type := parseClickType c.click_type
    normal_delay_ms := c.normal_delay_ms
    cps := c.cps
    hotkey := initHotkey c.hotkey }

/-- The `match *self.click_mode...` in `fn save_current_config`
(src/main.rs). -/
def clickModeToString : ClickMode → String
  | .Hold => "Hold"
  | .Humanized => "Humanized"
  | .Click => "Click"

/-- The `match *self.click_type...` in `fn save_current_config`
(src/main.rs). -/
def clickTypeToString : ClickType → String
  | .RightClick => "RightClick"
  | .Space => "Space"
  | .LeftClick => "LeftClick"

/-- Rust `fn save_current_config` (src/main.rs): build the `AppConfig` that is
persisted from the current application state (`Duration::as_millis` of a
duration built with `Duration::from_millis` is the identity on the stored
millisecond count). -/
def configFromApp (a : AppSettings) : AppConfig :=
  { hotkey := a.hotkey.map key_to_string
    click_mode := clickModeToString a.click_mode
    click_type := clickTypeToString a.click_type
    normal_delay_ms := a.normal_delay_ms
    cps := a.cps }

/-! ## Targeted window actions (C7)

Each `*_target_window` function enumerates the visible windows
(`EnumWindows` with `enum_windows_proc`, modelled as the snapshot list),
scans for the first entry whose title equals the configured target, and —
only when found — posts the corresponding messages; otherwise it does
nothing.  The emitted primitives are collected in a trace. -/

/-- A Window Directory snapshot: (opaque handle, title) pairs. -/
abbrev WindowSnapshot := List (ℕ × String)

/-- Window messages posted by the targeted click functions. -/
inductive WinMsg where
  | lbuttondown | lbuttonup | rbuttondown | rbuttonup | keydown | keyup
deriving DecidableEq, Repr

/-- Input primitives the program can invoke: global simulation events
(`rdev::simulate`) or a `PostMessageW` to a window handle. -/
inductive Prim where
  | simLeftPress | simLeftRelease
  | simRightPress | simRightRelease
  | simSpacePress | simSpaceRelease
  | postMessage (hwnd : ℕ) (msg : WinMsg)
deriving DecidableEq, Repr

/-- The find-first-matching-title scan shared by every `*_target_window`
function (src/main.rs): iterate over the enumerated windows and stop at
the first whose title equals the target. -/
def findWindow (snapshot : WindowSnapshot) (title : String) : Option ℕ :=
  match snapshot.find? (fun p => p.2 = title) with
  | some p => some p.1
  | none => none

/-- Rust `fn click_target_window` (src/main.rs): post
`WM_LBUTTONDOWN`/`WM_LBUTTONUP` to the resolved handle, or do nothing. -/
def click_target_window (snapshot : WindowSnapshot) (title : String) : List Prim :=
  match findWindow snapshot title with
  | some h => [.postMessage h .lbuttondown, .postMessage h .lbuttonup]
  | none => []

/-- Rust `fn right_click_target_window` (src/main.rs). -/
def right_click_target_window (snapshot : WindowSnapshot) (title : String) : List Prim :=
  match findWindow snapshot title with
  | some h => [.postMessage h .rbuttondown, .postMessage h .rbuttonup]
  | none => []

/-- Rust `fn space_target_window` (src/main.rs). -/
def space_target_window (snapshot : WindowSnapshot) (title : String) : List Prim :=
  match findWindow snapshot title with
  | some h => [.postMessage h .keydown, .postMessage h .keyup]
  | none => []

/-- Rust `fn hold_target_window` (src/main.rs). -/
def hold_target_window (snapshot : WindowSnapshot) (title : String) : List Prim :=
  match findWindow snapshot title with
  | some h => [.postMessage h .lbuttondown]
  | none => []

/-- Rust `fn release_target_window` (src/main.rs). -/
def release_target_window (snapshot : WindowSnapshot) (title : String) : List Prim :=
  match findWindow snapshot title with
  | some h => [.postMessage h .lbuttonup]
  | none => []

/-- Rust `fn right_hold_target_window` (src/main.rs). -/
def right_hold_target_window (snapshot : WindowSnapshot) (title : String) : List Prim :=
  match findWindow snapshot title with
  | some h => [.postMessage h .rbuttondown]
  | none => []

/-- Rust `fn right_release_target_window` (src/main.rs). -/
def right_release_target_window (snapshot : WindowSnapshot) (title : String) : List Prim :=
  match findWindow snapshot title with
  | some h => [.postMessage h .rbuttonup]
  | none => []

/-- Rust `fn space_hold_target_window` (src/main.rs). -/
def space_hold_target_window (snapshot : WindowSnapshot) (title : String) : List Prim :=
  match findWindow snapshot title with
  | some h => [.postMessage h .keydown]
  | none => []

/-- Rust `fn space_release_target_window` (src/main.rs). -/
def space_release_target_window (snapshot : WindowSnapshot) (title : String) : List Prim :=
  match findWindow snapshot title with
  | some h => [.postMessage h .keyup]
  | none => []

/-- Rust `fn perform_click(click_type, target)` (src/main.rs), dispatching to a
targeted function or to global simulation; returns the trace of input
primitives invoked. -/
def perform_click (ct : ClickType) (target : Option String)
    (snapshot : WindowSnapshot) : List Prim :=
  match ct with
  | .LeftClick =>
      match target with
      | some t => click_target_window snapshot t
      | none => [.simLeftPress, .simLeftRelease]
  | .RightClick =>
      match target with
      | some t => right_click_target_window snapshot t
      | none => [.simRightPress, .simRightRelease]
  | .Space =>
      match target with
      | some t => space_target_window snapshot t
      | none => [.simSpacePress, .simSpaceRelease]

/-- Rust `fn perform_hold(click_type, target)` (src/main.rs). -/
def perform_hold (ct : ClickType) (target : Option String)
    (snapshot : WindowSnapshot) : List Prim :=
  match ct with
  | .LeftClick =>
      match target with
      | some t => hold_target_window snapshot t
      | none => [.simLeftPress]
  | .RightClick =>
      match target with
      | some t => right_hold_target_window snapshot t
      | none => [.simRightPress]
  | .Space =>
      match target with
      | some t => space_hold_target_window snapshot t
      | none => [.simSpacePress]

/-- Rust `fn perform_release(click_type, target)` (src/main.rs). -/
def perform_release (ct : ClickType) (target : Option String)
    (snapshot : WindowSnapshot) : List Prim :=
  match ct with
  | .LeftClick =>
      match target with
      | some t => release_target_window snapshot t
      | none => [.simLeftRelease]
  | .RightClick =>
      match target with
      | some t => right_release_target_window snapshot t
      | none => [.simRightRelease]
  | .Space =>
      match target with
      | some t => space_release_target_window snapshot t
      | none => [.simSpaceRelease]

/-! ## Hotkey capture mode (C8, C9)

The capture branch of `impl eframe::App for PyladeClickerApp::update`
(src/main.rs) runs once per UI frame while `capturing_hotkey` is set.  It
(1) builds the set of currently-down recognized keys (modifiers first,
then a fixed scan list), (2) commits it at once when it has 2+ members,
and then (3) — unconditionally, in the same frame — scans the frame's
events for a key-release of a recognized key and, at the first one,
commits that single key.  Both commits clear the listening text, leave
capture mode and persist the configuration (`save_current_config`). -/

/-- The fixed `for key in [...]` scan list of (egui key, rdev key) pairs in
the capture branch, by their rdev image, in source order. -/
def captureScan : List Key :=
  [.F1, .F2, .F3, .F4, .F5, .F6, .F7, .F8, .F9, .F10, .F11, .F12,
   .Home, .End, .PageUp, .PageDown, .Insert, .Delete,
   .UpArrow, .DownArrow, .LeftArrow, .RightArrow,
   .Space, .Return, .Escape, .Tab, .Backspace]

/-- The per-frame input snapshot the capture branch reads:
the modifier booleans of `i.modifiers`, the `i.key_down(...)` predicate on
the scan list, and the frame's event list (`i.events`), reduced to the
key-release events (an `egui::Event::Key {pressed: false, ..}` whose key
maps to a recognized rdev key is `some k`; any other event is `none`,
matching the `_ => None` arm that makes the loop skip it). -/
structure CaptureFrame where
  shift : Bool
  ctrl : Bool
  alt : Bool
  down : Key → Bool
  releaseEvents : List (Option Key)

/-- The `current_combo` built at the top of the capture branch: left-shift
/ left-ctrl / alt for the active modifiers, then every scan-list key that
is currently down and not already present. -/
def currentCombo (f : CaptureFrame) : List Key :=
  let mods :=
    (if f.shift then [Key.ShiftLeft] else []) ++
    (if f.ctrl then [Key.ControlLeft] else []) ++
    (if f.alt then [Key.Alt] else [])
  captureScan.foldl
    (fun acc k => if f.down k ∧ k ∉ acc then acc ++ [k] else acc) mods

/-- The `for event in &i.events` loop of the capture branch: the first
release event whose key maps to a recognized rdev key (the loop `break`s
there); unrecognized releases and other events are skipped. -/
def firstRecognizedRelease : List (Option Key) → Option Key
  | [] => none
  | some k :: _ => some k
  | none :: rest => firstRecognizedRelease rest

/-- The capture-relevant application state: the committed hotkey, the
`capturing_hotkey` flag, the live `current_combination`, and the log of
hotkey values persisted by `save_current_config` (each commit appends). -/
structure CaptureState where
  hotkey : List Key
  capturing : Bool
  currentCombination : List Key
  saved : List (List Key)
deriving DecidableEq, Repr

/-- One UI frame of the capture branch of `fn update` (src/main.rs):
no-op when not capturing; otherwise store the live combination, commit it
when it has 2+ members (persist, exit capture), and then — still in the
same frame — commit the first recognized release event's key as a
single-key hotkey (persist, exit capture), overwriting any combination
committed moments before. -/
def captureFrameStep (st : CaptureState) (f : CaptureFrame) : CaptureState :=
  if st.capturing then
    let combo := currentCombo f
    let st1 : CaptureState := { st with currentCombination := combo }
    let st2 : CaptureState :=
      if 2 ≤ combo.length then
        { st1 with
            hotkey := combo
            capturing := false
            currentCombination := []
            saved := st1.saved ++ [combo] }
      else st1
    match firstRecognizedRelease f.releaseEvents with
    | some k =>
        { st2 with
            hotkey := [k]
            capturing := false
            currentCombination := []
            saved := st2.saved ++ [[k]] }
    | none => st2
  else st

/-! ## Helper lemmas -/

/-- Starting from any holding-state, the events emitted by the engine loop
alternate correctly; the loop's `is_holding` flag tracks the alternation
state. -/
theorem alternatesFrom_engineRun :
    ∀ (envs : List (Bool × ClickMode)) (holding : Bool),
      alternatesFrom holding (engineRun envs holding) = true := by
  intro envs
  induction envs with
  | nil => intro holding; cases holding <;> rfl
  | cons e rest ih =>
      intro holding
      obtain ⟨a, m⟩ := e
      cases a <;> cases m <;> cases holding <;>
        simp [engineRun, engineStep, alternatesFrom, ih]

/-- A burst of `n` clicks contains exactly `n` click events. -/
theorem clickCount_burstTrace (d n : ℕ) : clickCount (burstTrace d n) = n := by
  induction n using burstTrace.induct d with
  | case1 => rfl
  | case2 => rfl
  | case3 n ih =>
      simp [burstTrace, clickCount, List.countP_cons] at ih ⊢
      omega

/-- A burst of `n` clicks sleeps exactly `n - 1` times, always for the
single drawn micro-delay `d`. -/
theorem sleepsOf_burstTrace (d n : ℕ) :
    sleepsOf (burstTrace d n) = List.replicate (n - 1) d := by
  induction n using burstTrace.induct d with
  | case1 => rfl
  | case2 => rfl
  | case3 n ih =>
      simp [burstTrace, sleepsOf] at ih ⊢
      rw [ih]
      simp [List.replicate_succ]

/-! ## Claim theorems -/

/-- C1: over every finite run of clicking-loop iterations starting with
the holding flag false, under any interleaving of active-flag toggles and
mode changes, the Hold-mode press/release events alternate — a press is
issued only when the holding flag is false (setting it true), and while
the active flag is false and the holding flag is true the iteration issues
exactly one release and clears the flag; hence every press is followed by
exactly one release before any next press and no release occurs without a
preceding press. -/
theorem hold_press_release_pairing :
    (∀ envs : List (Bool × ClickMode),
        alternatesFrom false (engineRun envs false) = true)
    ∧ (∀ m : ClickMode, engineStep false m true = ([.holdRelease], false))
    ∧ (∀ m : ClickMode, engineStep false m false = ([], false))
    ∧ engineStep true .Hold false = ([.holdPress], true)
    ∧ engineStep true .Hold true = ([], true) :=
  ⟨fun envs => alternatesFrom_engineRun envs false,
   fun _ => rfl, fun _ => rfl, rfl, rfl⟩

/-- C2 (counterexample): at rate 3 cps with the permitted draw −10, the
computed delay is 323 ms, which is strictly below `1000/3 − 10` ms — the
`as u64` truncation pushes the delay outside the claimed ±10 ms band, so
the delay does not equal `1000/cps` plus a variation of at most ±10 ms. -/
theorem humanized_delay_claim_counterexample :
    (0:ℚ) < 3 ∧ (3:ℚ) ≤ 50
    ∧ humanizedBand 3 = 10
    ∧ -humanizedBand 3 ≤ (-10:ℚ) ∧ (-10:ℚ) ≤ humanizedBand 3
    ∧ calculate_humanized_delay 3 (-10) = 323
    ∧ ((calculate_humanized_delay 3 (-10) : ℚ) < 1000 / 3 - 10) := by
  have hd : calculate_humanized_delay 3 (-10) = 323 := by
    norm_num [calculate_humanized_delay]
    rfl
  refine ⟨by norm_num, by norm_num, by norm_num [humanizedBand],
    by norm_num [humanizedBand], by norm_num [humanizedBand], hd, ?_⟩
  rw [hd]; norm_num

/-- C2 (amended): for `0 < cps ≤ 50` and any variation `v` in the
applicable band (±3 above 20/s, ±5 in (10, 20], ±10 otherwise), the
computed delay is the integer truncation of `1000/cps + v` — it is at
least 1 ms and lies in the interval `(1000/cps − band − 1, 1000/cps + band]`
milliseconds (the truncation can undershoot the band by up to 1 ms, but
never exceeds it). -/
theorem humanized_delay_amended (cps v : ℚ) (h0 : 0 < cps) (h50 : cps ≤ 50)
    (hlo : -humanizedBand cps ≤ v) (hhi : v ≤ humanizedBand cps) :
    1 ≤ calculate_humanized_delay cps v
    ∧ 1000 / cps + v - 1 < (calculate_humanized_delay cps v : ℚ)
    ∧ (calculate_humanized_delay cps v : ℚ) ≤ 1000 / cps + v
    ∧ 1000 / cps - humanizedBand cps - 1 < (calculate_humanized_delay cps v : ℚ)
    ∧ (calculate_humanized_delay cps v : ℚ) ≤ 1000 / cps + humanizedBand cps := by
  have hband : humanizedBand cps ≤ 10 := by
    unfold humanizedBand; split_ifs <;> norm_num
  have hbase : (20:ℚ) ≤ 1000 / cps := by
    rw [le_div_iff₀ h0]; linarith
  have hmax : max (1000 / cps + v) 1 = 1000 / cps + v := max_eq_left (by linarith)
  have hfl0 : (0:ℤ) ≤ ⌊(1000 / cps + v : ℚ)⌋ := Int.floor_nonneg.mpr (by linarith)
  have hval : ((calculate_humanized_delay cps v : ℕ) : ℚ)
      = (⌊(1000 / cps + v : ℚ)⌋ : ℚ) := by
    unfold calculate_humanized_delay
    rw [hmax]
    exact_mod_cast congrArg (fun z : ℤ => (z : ℚ)) (Int.toNat_of_nonneg hfl0)
  have hup : (calculate_humanized_delay cps v : ℚ) ≤ 1000 / cps + v := by
    rw [hval]; exact Int.floor_le _
  have hdown : 1000 / cps + v - 1 < (calculate_humanized_delay cps v : ℚ) := by
    rw [hval]; exact Int.sub_one_lt_floor _
  refine ⟨?_, hdown, hup, by linarith, by linarith⟩
  have h1 : (1:ℤ) ≤ ⌊(1000 / cps + v : ℚ)⌋ :=
    Int.le_floor.mpr (by push_cast; linarith)
  unfold calculate_humanized_delay
  rw [hmax]
  omega

/-- Witness for `humanized_delay_amended` at rate 4 cps and variation 0:
the delay is between 249 and 250 ms and at least 1 ms. -/
theorem humanized_delay_amended_witness :
    ((0:ℚ) < 4 ∧ (4:ℚ) ≤ 50
      ∧ -humanizedBand 4 ≤ (0:ℚ) ∧ (0:ℚ) ≤ humanizedBand 4)
    ∧ (1 ≤ calculate_humanized_delay 4 0
       ∧ 1000 / 4 + 0 - 1 < (calculate_humanized_delay 4 0 : ℚ)
       ∧ (calculate_humanized_delay 4 0 : ℚ) ≤ 1000 / 4 + 0
       ∧ 1000 / 4 - humanizedBand 4 - 1 < (calculate_humanized_delay 4 0 : ℚ)
       ∧ (calculate_humanized_delay 4 0 : ℚ) ≤ 1000 / 4 + humanizedBand 4) :=
  ⟨⟨by norm_num, by norm_num, by norm_num [humanizedBand], by norm_num [humanizedBand]⟩,
   humanized_delay_amended 4 0 (by norm_num) (by norm_num)
     (by norm_num [humanizedBand]) (by norm_num [humanizedBand])⟩

/-- C3 (counterexample): at rate 51 cps the burst-size base is
`(51 * 0.5) as usize = 25`, so the draw 20 is permitted
(`gen_range(20..=30)`), and a burst of 20 clicks results — but
`max(0, 51*0.5 − 5) = 20.5 > 20`, so the burst size falls outside the
claimed interval `[max(0, cps*0.5 − 5), cps*0.5 + 5]`. -/
theorem burst_size_claim_counterexample :
    (50:ℚ) < 51
    ∧ base_burst_size 51 = 25
    ∧ base_burst_size 51 - 5 ≤ 20 ∧ 20 ≤ base_burst_size 51 + 5
    ∧ clickCount (drag_click_burst 51 20 1000) = 20
    ∧ ((clickCount (drag_click_burst 51 20 1000) : ℚ) < max 0 (51 * (1 / 2) - 5)) := by
  have hb : base_burst_size 51 = 25 := by
    norm_num [base_burst_size]
    rfl
  have hc : clickCount (drag_click_burst 51 20 1000) = 20 :=
    clickCount_burstTrace 1000 20
  refine ⟨by norm_num, hb, by rw [hb], by rw [hb]; norm_num, hc, ?_⟩
  rw [hc]; norm_num

/-- C3 (amended): for every rate `cps > 50` and draws in the ranges the
code samples from, the burst has between `⌊cps·0.5⌋ − 5` (saturating at 0)
and `⌊cps·0.5⌋ + 5` clicks — in particular never more than `cps·0.5 + 5` —
every pair of consecutive clicks is separated by the drawn micro-delay,
which lies in [500, 1500] microseconds, and the pause drawn before
re-evaluating state lies in [450, 550] ms. -/
theorem drag_click_burst_amended (cps : ℚ) (n d p : ℕ)
    (hcps : 50 < cps)
    (hn1 : base_burst_size cps - 5 ≤ n) (hn2 : n ≤ base_burst_size cps + 5)
    (hd1 : 500 ≤ d) (hd2 : d ≤ 1500) (hp1 : 450 ≤ p) (hp2 : p ≤ 550) :
    clickCount (drag_click_burst cps n d) = n
    ∧ base_burst_size cps - 5 ≤ clickCount (drag_click_burst cps n d)
    ∧ clickCount (drag_click_burst cps n d) ≤ base_burst_size cps + 5
    ∧ ((clickCount (drag_click_burst cps n d) : ℚ) ≤ cps * (1 / 2) + 5)
    ∧ sleepsOf (drag_click_burst cps n d) = List.replicate (n - 1) d
    ∧ 500 ≤ d ∧ d ≤ 1500 ∧ 450 ≤ p ∧ p ≤ 550 := by
  have hcc : clickCount (drag_click_burst cps n d) = n := clickCount_burstTrace d n
  have hs : sleepsOf (drag_click_burst cps n d) = List.replicate (n - 1) d :=
    sleepsOf_burstTrace d n
  have hf0 : (0:ℤ) ≤ ⌊cps * (1 / 2)⌋ := Int.floor_nonneg.mpr (by linarith)
  have hbq : (base_burst_size cps : ℚ) ≤ cps * (1 / 2) := by
    unfold base_burst_size
    have h1 : ((⌊cps * (1 / 2)⌋.toNat : ℤ) : ℚ) = (⌊cps * (1 / 2)⌋ : ℚ) := by
      rw [Int.toNat_of_nonneg hf0]
    calc ((⌊cps * (1 / 2)⌋.toNat : ℕ) : ℚ) = (⌊cps * (1 / 2)⌋ : ℚ) := by
          exact_mod_cast h1
      _ ≤ cps * (1 / 2) := Int.floor_le _
  have h4 : (n : ℚ) ≤ cps * (1 / 2) + 5 := by
    have hn2q : (n : ℚ) ≤ (base_burst_size cps : ℚ) + 5 := by exact_mod_cast hn2
    linarith
  exact ⟨hcc, by rw [hcc]; exact hn1, by rw [hcc]; exact hn2,
    by rw [hcc]; exact h4, hs, hd1, hd2, hp1, hp2⟩

/-- Witness for `drag_click_burst_amended` at rate 60 cps, burst draw 30,
micro-delay 1000 µs, pause 500 ms. -/
theorem drag_click_burst_amended_witness :
    ((50:ℚ) < 60 ∧ base_burst_size 60 - 5 ≤ 30 ∧ 30 ≤ base_burst_size 60 + 5)
    ∧ (clickCount (drag_click_burst 60 30 1000) = 30
       ∧ base_burst_size 60 - 5 ≤ clickCount (drag_click_burst 60 30 1000)
       ∧ clickCount (drag_click_burst 60 30 1000) ≤ base_burst_size 60 + 5
       ∧ ((clickCount (drag_click_burst 60 30 1000) : ℚ) ≤ 60 * (1 / 2) + 5)
       ∧ sleepsOf (drag_click_burst 60 30 1000) = List.replicate (30 - 1) 1000
       ∧ 500 ≤ 1000 ∧ 1000 ≤ 1500 ∧ 450 ≤ 500 ∧ 500 ≤ 550) := by
  have hb : base_burst_size 60 = 30 := by
    norm_num [base_burst_size]
    rfl
  exact ⟨⟨by norm_num, by rw [hb]; omega, by rw [hb]; omega⟩,
    drag_click_burst_amended 60 30 1000 500 (by norm_num)
      (by rw [hb]; omega) (by rw [hb]; omega)
      (by norm_num) (by norm_num) (by norm_num) (by norm_num)⟩

/-- C4: a key-press event toggles the active flag if and only if the
pressed key is a member of the configured combination — for a one-member
combination this means equality with that member, for a larger combination
any member suffices, and a non-member never toggles; non-press events
never toggle. -/
theorem hotkey_toggle_iff_member (hk : List Key) (c : Bool) (k : Key) :
    hotkeyToggleStep hk c (.keyPress k) = (if k ∈ hk then !c else c)
    ∧ (hotkeyToggleStep hk c (.keyPress k) ≠ c ↔ k ∈ hk)
    ∧ hotkeyToggleStep hk c (.keyRelease k) = c := by
  have h1 : hotkeyToggleStep hk c (.keyPress k) = (if k ∈ hk then !c else c) := by
    match hk with
    | [] => simp [hotkeyToggleStep]
    | [a] => by_cases hka : k = a <;> simp [hotkeyToggleStep, hka]
    | a :: b :: t => by_cases hm : k ∈ a :: b :: t <;> simp [hotkeyToggleStep, hm]
  refine ⟨h1, ?_, rfl⟩
  rw [h1]
  by_cases hm : k ∈ hk <;> simp [hm]

/-- C5: serializing the configuration (mode `Humanized`, kind
`RightClick`, rate 42.5 cps, hotkey `[F7]`, any delay) through the config
store and loading it back yields field-for-field the same application
state; loading a garbage document yields the default configuration
(hotkey `F6`, mode `Click`, kind `LeftClick`, 1000 ms, 10 cps). -/
theorem config_roundtrip (d : ℕ) :
    appFromConfig (load_config (some (encodeConfig (configFromApp
        ⟨ClickMode.Humanized, ClickType.RightClick, d, 85 / 2, [Key.F7]⟩))))
      = ⟨ClickMode.Humanized, ClickType.RightClick, d, 85 / 2, [Key.F7]⟩
    ∧ appFromConfig (load_config (some ConfigDoc.malformed))
      = ⟨ClickMode.Click, ClickType.LeftClick, 1000, 10, [Key.F6]⟩ :=
  ⟨rfl, rfl⟩

/-- C6: an unknown or missing click-mode name falls back to `Click`, an
unknown or missing click-action-kind name falls back to `LeftClick`, and
an absent or unparsable config file yields the default configuration
(hotkey `F6`, mode `Click`, kind `LeftClick`, 1000 ms, 10 cps) without
surfacing an error (loading is total). -/
theorem config_fallbacks (s t : String)
    (hs1 : s ≠ "Hold") (hs2 : s ≠ "Humanized")
    (ht1 : t ≠ "RightClick") (ht2 : t ≠ "Space") :
    parseClickMode s = ClickMode.Click
    ∧ parseClickType t = ClickType.LeftClick
    ∧ load_config none = AppConfig.default
    ∧ load_config (some ConfigDoc.malformed) = AppConfig.default
    ∧ appFromConfig AppConfig.default
      = ⟨ClickMode.Click, ClickType.LeftClick, 1000, 10, [Key.F6]⟩ := by
  refine ⟨?_, ?_, rfl, rfl, rfl⟩
  · simp [parseClickMode, hs1, hs2]
  · simp [parseClickType, ht1, ht2]

/-- Witness for `config_fallbacks` at the unknown names "Bogus" and
"Middle". -/
theorem config_fallbacks_witness :
    ("Bogus" ≠ "Hold" ∧ "Bogus" ≠ "Humanized"
      ∧ "Middle" ≠ "RightClick" ∧ "Middle" ≠ "Space")
    ∧ (parseClickMode "Bogus" = ClickMode.Click
       ∧ parseClickType "Middle" = ClickType.LeftClick
       ∧ load_config none = AppConfig.default
       ∧ load_config (some ConfigDoc.malformed) = AppConfig.default
       ∧ appFromConfig AppConfig.default
         = ⟨ClickMode.Click, ClickType.LeftClick, 1000, 10, [Key.F6]⟩) :=
  ⟨⟨by decide, by decide, by decide, by decide⟩,
   config_fallbacks "Bogus" "Middle" (by decide) (by decide) (by decide) (by decide)⟩

/-- C7: for every action kind, if the Window Directory snapshot taken at
dispatch time contains no window whose title equals the configured target,
then clicking, holding and releasing against that target invoke no input
primitive at all (the functions are total, so no error is raised). -/
theorem target_missing_noop (ct : ClickType) (snapshot : WindowSnapshot)
    (title : String) (h : ∀ p ∈ snapshot, p.2 ≠ title) :
    perform_click ct (some title) snapshot = []
    ∧ perform_hold ct (some title) snapshot = []
    ∧ perform_release ct (some title) snapshot = [] := by
  have hfind : findWindow snapshot title = none := by
    unfold findWindow
    have hnone : snapshot.find? (fun p => p.2 = title) = none :=
      List.find?_eq_none.mpr (fun p hp => by simpa using h p hp)
    rw [hnone]
  cases ct <;>
    simp [perform_click, perform_hold, perform_release,
      click_target_window, right_click_target_window, space_target_window,
      hold_target_window, release_target_window, right_hold_target_window,
      right_release_target_window, space_hold_target_window,
      space_release_target_window, hfind]

/-- Witness for `target_missing_noop`: a snapshot holding only a window
titled "Notepad" and the stale target "Gone". -/
theorem target_missing_noop_witness :
    ((([(7, "Notepad")] : WindowSnapshot).all fun p => p.2 ≠ "Gone") = true)
    ∧ (perform_click ClickType.LeftClick (some "Gone") [(7, "Notepad")] = []
       ∧ perform_hold ClickType.LeftClick (some "Gone") [(7, "Notepad")] = []
       ∧ perform_release ClickType.LeftClick (some "Gone") [(7, "Notepad")] = []) :=
  ⟨by decide,
   target_missing_noop ClickType.LeftClick [(7, "Notepad")] "Gone"
     (by intro p hp; simp at hp; simp [hp])⟩

/-- C8 (counterexample): in a capture frame where F1 and F2 are both down
(a 2-member live set) and the frame's events also contain a release of F3,
the committed 2-key combination is immediately overwritten by the
release-event commit — the frame ends with hotkey `[F3]`, not `[F1, F2]`,
and both values are persisted; the release commit fires although two keys
were involved, not exactly one. -/
theorem capture_commit_counterexample :
    2 ≤ (currentCombo ⟨false, false, false,
        (fun k => k == Key.F1 || k == Key.F2), [some Key.F3]⟩).length
    ∧ currentCombo ⟨false, false, false,
        (fun k => k == Key.F1 || k == Key.F2), [some Key.F3]⟩ = [Key.F1, Key.F2]
    ∧ (captureFrameStep ⟨[Key.F6], true, [], []⟩ ⟨false, false, false,
        (fun k => k == Key.F1 || k == Key.F2), [some Key.F3]⟩).hotkey = [Key.F3]
    ∧ (captureFrameStep ⟨[Key.F6], true, [], []⟩ ⟨false, false, false,
        (fun k => k == Key.F1 || k == Key.F2), [some Key.F3]⟩).hotkey
        ≠ [Key.F1, Key.F2]
    ∧ (captureFrameStep ⟨[Key.F6], true, [], []⟩ ⟨false, false, false,
        (fun k => k == Key.F1 || k == Key.F2), [some Key.F3]⟩).saved
        = [[Key.F1, Key.F2], [Key.F3]] := by decide

/-- C8 (amended): during a capture frame, if the frame's events contain a
key-release of a recognized key, the first such released key is committed
as a single-key combination, persisted, and capture exits — regardless of
how many keys were involved, and overwriting (after also persisting) any
2-or-more-member live set committed in the same frame; otherwise, if the
live set has 2 or more members, it is committed, persisted, and capture
exits; otherwise nothing commits and capture continues. -/
theorem capture_commit_rules (st : CaptureState) (f : CaptureFrame)
    (hc : st.capturing = true) :
    (∀ k, firstRecognizedRelease f.releaseEvents = some k →
       (captureFrameStep st f).hotkey = [k]
       ∧ (captureFrameStep st f).capturing = false
       ∧ (captureFrameStep st f).saved =
           (if 2 ≤ (currentCombo f).length then st.saved ++ [currentCombo f]
            else st.saved) ++ [[k]])
    ∧ (firstRecognizedRelease f.releaseEvents = none →
        2 ≤ (currentCombo f).length →
       (captureFrameStep st f).hotkey = currentCombo f
       ∧ (captureFrameStep st f).capturing = false
       ∧ (captureFrameStep st f).saved = st.saved ++ [currentCombo f])
    ∧ (firstRecognizedRelease f.releaseEvents = none →
        (currentCombo f).length < 2 →
       (captureFrameStep st f).hotkey = st.hotkey
       ∧ (captureFrameStep st f).capturing = true
       ∧ (captureFrameStep st f).saved = st.saved) := by
  refine ⟨?_, ?_, ?_⟩
  · intro k hrel
    by_cases hlen : 2 ≤ (currentCombo f).length <;>
      simp [captureFrameStep, hc, hrel, hlen]
  · intro hrel hlen
    simp [captureFrameStep, hc, hrel, hlen]
  · intro hrel hlen
    have hlen2 : ¬ 2 ≤ (currentCombo f).length := by omega
    simp [captureFrameStep, hc, hrel, hlen2]

/-- Witness for `capture_commit_rules`: a capturing state seeing a frame
with no keys down whose events release F5 commits the single key F5. -/
theorem capture_commit_rules_witness :
    (CaptureState.mk [Key.F6] true [] []).capturing = true
    ∧ firstRecognizedRelease
        (CaptureFrame.mk false false false (fun _ => false) [some Key.F5]).releaseEvents
        = some Key.F5
    ∧ (captureFrameStep ⟨[Key.F6], true, [], []⟩
        ⟨false, false, false, (fun _ => false), [some Key.F5]⟩).hotkey = [Key.F5]
    ∧ (captureFrameStep ⟨[Key.F6], true, [], []⟩
        ⟨false, false, false, (fun _ => false), [some Key.F5]⟩).capturing = false := by
  have h := (capture_commit_rules ⟨[Key.F6], true, [], []⟩
      ⟨false, false, false, (fun _ => false), [some Key.F5]⟩ rfl).1
      Key.F5 rfl
  exact ⟨rfl, rfl, h.1, h.2.1⟩

/-- C9: the hotkey combination is never empty once initialized — loading
config always yields at least one key (falling back to F6 when no
persisted name parses), and a capture frame preserves non-emptiness of
the combination (each commit installs a non-empty list). -/
theorem hotkey_nonempty_invariant :
    (∀ strs : List String, initHotkey strs ≠ [])
    ∧ (∀ (st : CaptureState) (f : CaptureFrame),
        st.hotkey ≠ [] → (captureFrameStep st f).hotkey ≠ []) := by
  constructor
  · intro strs
    by_cases he : (strs.filterMap string_to_key).isEmpty
    · simp [initHotkey, he]
    · simp [initHotkey, he]
      simpa [List.isEmpty_iff] using he
  · intro st f h
    by_cases hc : st.capturing
    · cases hrel : firstRecognizedRelease f.releaseEvents with
      | some k => simp [captureFrameStep, hc, hrel]
      | none =>
          by_cases hlen : 2 ≤ (currentCombo f).length
          · simp [captureFrameStep, hc, hrel, hlen]
            intro hnil
            rw [hnil] at hlen
            simp at hlen
          · simp [captureFrameStep, hc, hrel, hlen, h]
    · simp [captureFrameStep, hc, h]

/-- Witness for `hotkey_nonempty_invariant`: the empty persisted list
initializes to a non-empty hotkey, and a capturing no-event frame keeps
the hotkey non-empty. -/
theorem hotkey_nonempty_invariant_witness :
    initHotkey [] ≠ []
    ∧ (captureFrameStep ⟨[Key.F6], true, [], []⟩
        ⟨false, false, false, (fun _ => false), []⟩).hotkey ≠ [] :=
  ⟨hotkey_nonempty_invariant.1 [],
   hotkey_nonempty_invariant.2 ⟨[Key.F6], true, [], []⟩
     ⟨false, false, false, (fun _ => false), []⟩ (by decide)⟩

/-- C10: `string_to_key (key_to_string k)` recovers `k` for the function
keys F1–F12, Space, Enter, Escape, Tab, Home, End, Insert, Delete, the
four arrow keys and Backspace, but yields `none` for the capturable keys
PageUp, PageDown, ShiftLeft, ControlLeft and Alt, whose display names
("Page Up", "Left Shift", ...) are not parsed back; consequently a saved
hotkey containing such a key silently loses that member on reload (and an
all-lost hotkey falls back to `[F6]`). -/
theorem key_roundtrip_partial :
    (([Key.F1, Key.F2, Key.F3, Key.F4, Key.F5, Key.F6, Key.F7, Key.F8,
       Key.F9, Key.F10, Key.F11, Key.F12, Key.Space, Key.Return, Key.Escape,
       Key.Tab, Key.Home, Key.End, Key.Insert, Key.Delete, Key.UpArrow,
       Key.DownArrow, Key.LeftArrow, Key.RightArrow, Key.Backspace].all
        fun k => string_to_key (key_to_string k) == some k) = true)
    ∧ (([Key.PageUp, Key.PageDown, Key.ShiftLeft, Key.ControlLeft, Key.Alt].all
        fun k => string_to_key (key_to_string k) == none) = true)
    ∧ initHotkey [key_to_string Key.F7, key_to_string Key.PageUp] = [Key.F7]
    ∧ initHotkey [key_to_string Key.PageUp] = [Key.F6] := by decide

end PyladeClicker



